import Mathlib

/-!
Shallow embedding of `src/csv_tool.py`, a CSV/Excel merge-select-rename-validate
pipeline.  Pandas DataFrames are modelled as an explicit `Table` (ordered column
names, rows as cell lists aligned with the columns, and a row index, since
`pd.concat(ignore_index=True)` reassigns it).  Python exceptions are modelled by
the `Exc` type; `UnicodeDecodeError` is kept distinct because the reader's
fallback branches on it, and it still counts as a `ValueError` (its superclass)
for `main`'s `except ValueError` handler.  Logging calls are modelled as
structured `LogEntry` values, one constructor per call site.
-/

namespace CsvTool

/-- A dynamically typed scalar cell of a DataFrame (string, number, boolean,
or null/NaN). -/
inductive Cell where
  | null
  | str (s : String)
  | num (n : Int)
  | boolean (b : Bool)
deriving DecidableEq, Repr

/-- A pandas DataFrame: ordered column names, rows aligned with the columns,
and the row index (`read_csv` yields `range(n)`; `concat(ignore_index=True)`
reassigns it). -/
structure Table where
  cols : List String
  rows : List (List Cell)
  idx : List Nat
deriving DecidableEq, Repr

/-- A `pathlib.Path` as the tool uses it: `path.name` for log messages and
`path.suffix` (the final extension, dot included) as the dispatch key. -/
structure FPath where
  name : String
  suffix : String
deriving DecidableEq, Repr

/-- Python exceptions, as classified by `main`'s handlers:
`except ValueError` (which also catches `UnicodeDecodeError`, a subclass)
returns 2, `except Exception` returns 1. -/
inductive Exc where
  | unicodeDecodeError (msg : String)
  | valueError (msg : String)
  | genericError (msg : String)
deriving DecidableEq, Repr

/-- Whether the exception is caught by `except ValueError` in `main`
(`UnicodeDecodeError` is a `ValueError` subclass in Python). -/
def Exc.isValueError : Exc → Bool
  | Exc.unicodeDecodeError _ => true
  | Exc.valueError _ => true
  | Exc.genericError _ => false

/-- One structured log record per logging call site in `csv_tool.py`. -/
inductive LogEntry where
  | warnLatin1 (name : String)
  | errorReadFailed (name : String) (e : Exc)
  | infoLoaded (name : String) (nrows ncols : Nat)
  | infoMergedRows (n : Nat)
  | errorColumnsNotFound (missing : List String)
  | infoAvailable (cols : List String)
  | infoSelected (cols : List String)
  | warnCannotRename (invalid : List String)
  | infoRenamed (m : List (String × String))
  | errorMissingRequired (missing : List String)
  | infoRequiredOk
  | infoFinal (nrows ncols : Nat)
  | infoColumns (cols : List String)
  | infoSaved (name : String)
  | errorValidation (e : Exc)
  | errorExecution (e : Exc)
deriving DecidableEq, Repr

/-- The decode outcomes a file on disk would give under each decoder the tool
can invoke: `pd.read_csv(..., encoding='utf-8')`, the latin1 retry, and
`pd.read_excel`.  The pandas decoders are external collaborators, so a file is
modelled by what they would return for it. -/
structure FileData where
  csvUtf8 : Except Exc Table
  csvLatin1 : Except Exc Table
  excelRead : Except Exc Table

/-- Python's `str.lower()` (ASCII suffices for the extension dispatch). -/
def lowerStr (s : String) : String := String.mk (s.data.map Char.toLower)

/-- Split a character list on a separator character; like Python's
`str.split(sep)`, the empty input yields one empty field. -/
def splitChars (sep : Char) : List Char → List (List Char)
  | [] => [[]]
  | c :: cs =>
    if c = sep then [] :: splitChars sep cs
    else
      match splitChars sep cs with
      | [] => [[c]]
      | h :: t => (c :: h) :: t

/-- Python's `str.split(sep)` for a one-character separator. -/
def splitStr (s : String) (sep : Char) : List String :=
  (splitChars sep s.data).map String.mk

/-- Drop leading whitespace characters. -/
def dropLeadingWs : List Char → List Char
  | [] => []
  | c :: cs => if c.isWhitespace then dropLeadingWs cs else c :: cs

/-- Python's `str.strip()`: remove leading and trailing whitespace. -/
def trimStr (s : String) : String :=
  String.mk (dropLeadingWs (dropLeadingWs s.data.reverse).reverse)

/-- Membership of a string in a list, as Python's `c in df.columns`. -/
def memb (c : String) : List String → Bool
  | [] => false
  | x :: xs => if x = c then true else memb c xs

/-- First index of a column label, for positional cell lookup. -/
def idxOf (c : String) : List String → Option Nat
  | [] => none
  | x :: xs => if x = c then some 0 else (idxOf c xs).map (· + 1)

/-- The cell of row `r` (a row of table `t`) under column label `c`; missing
labels give NaN, which is how `pd.concat` fills unmatched columns. -/
def Table.getCell (t : Table) (r : List Cell) (c : String) : Cell :=
  match idxOf c t.cols with
  | some i => r.getD i Cell.null
  | none => Cell.null

/-- `read_table` (lines 19-46): dispatch on the lowercased suffix; for `.csv`
try utf-8, and on a `UnicodeDecodeError` only, warn and retry once with
latin1.  Exceptions escaping the `try` body are logged (`Failed to read`) and
re-raised; an unrecognized suffix raises `ValueError` outside the `try`, with
no log. -/
def read_table (fs : FPath → FileData) (path : FPath) : Except Exc Table × List LogEntry :=
  if lowerStr path.suffix = ".xlsx" ∨ lowerStr path.suffix = ".xls" then
    match (fs path).excelRead with
    | Except.ok t => (Except.ok t, [])
    | Except.error e => (Except.error e, [LogEntry.errorReadFailed path.name e])
  else if lowerStr path.suffix = ".csv" then
    match (fs path).csvUtf8 with
    | Except.ok t => (Except.ok t, [])
    | Except.error (Exc.unicodeDecodeError _) =>
      match (fs path).csvLatin1 with
      | Except.ok t => (Except.ok t, [LogEntry.warnLatin1 path.name])
      | Except.error e =>
        (Except.error e, [LogEntry.warnLatin1 path.name, LogEntry.errorReadFailed path.name e])
    | Except.error e => (Except.error e, [LogEntry.errorReadFailed path.name e])
  else
    (Except.error (Exc.valueError ("Unsupported format: " ++ path.name)), [])

/-- Append the column labels of `cs` not already present, matching how
`pd.concat` forms the result columns (first frame's labels, then new labels
in order of appearance). -/
def unionCols (acc : List String) (cs : List String) : List String :=
  acc ++ cs.filter (fun c => !(memb c acc))

/-- The column labels of `pd.concat(ts)`. -/
def concatCols (ts : List Table) : List String :=
  ts.foldl (fun acc t => unionCols acc t.cols) []

/-- Re-express a row of `t` over the concatenated column list, filling
columns absent from `t` with NaN. -/
def reindexRow (t : Table) (cols : List String) (r : List Cell) : List Cell :=
  cols.map (fun c => t.getCell r c)

/-- `pd.concat(frames, ignore_index=True)`: all rows in frame order, columns
aligned by label with NaN fill, and a freshly assigned contiguous index. -/
def concatTables (ts : List Table) : Table :=
  let cols := concatCols ts
  let rows := (ts.map (fun t => t.rows.map (reindexRow t cols))).flatten
  ⟨cols, rows, List.range rows.length⟩

/-- The loop of `merge_inputs` (lines 59-63): read each input in order,
logging a `Loaded` line per success; the first exception aborts the loop. -/
def readAll (fs : FPath → FileData) : List FPath → Except Exc (List Table) × List LogEntry
  | [] => (Except.ok [], [])
  | p :: ps =>
    match read_table fs p with
    | (Except.ok df, rlogs) =>
      match readAll fs ps with
      | (Except.ok dfs, logs) =>
        (Except.ok (df :: dfs),
         rlogs ++ [LogEntry.infoLoaded p.name df.rows.length df.cols.length] ++ logs)
      | (Except.error e, logs) =>
        (Except.error e,
         rlogs ++ [LogEntry.infoLoaded p.name df.rows.length df.cols.length] ++ logs)
    | (Except.error e, rlogs) => (Except.error e, rlogs)

/-- `merge_inputs` (lines 49-64): read all inputs then concatenate
(`pd.concat` of an empty list raises `ValueError`). -/
def merge_inputs (fs : FPath → FileData) (inputs : List FPath) :
    Except Exc Table × List LogEntry :=
  match readAll fs inputs with
  | (Except.error e, logs) => (Except.error e, logs)
  | (Except.ok [], logs) => (Except.error (Exc.valueError "No objects to concatenate"), logs)
  | (Except.ok (f :: fr), logs) => (Except.ok (concatTables (f :: fr)), logs)

/-- Python dict insertion `mapping[k] = v`: an existing key keeps its position
and gets the new value, a new key is appended. -/
def dictInsert (m : List (String × String)) (k v : String) : List (String × String) :=
  if m.any (fun p => p.1 = k) then m.map (fun p => if p.1 = k then (k, v) else p)
  else m ++ [(k, v)]

/-- The loop of `parse_mapping`: `old, new = pair.split(":")` raises
`ValueError` unless the split has exactly two parts. -/
def parse_pairs (m : List (String × String)) :
    List String → Except Exc (List (String × String))
  | [] => Except.ok m
  | pair :: rest =>
    match splitStr pair ':' with
    | [old, new] => parse_pairs (dictInsert m (trimStr old) (trimStr new)) rest
    | _ => Except.error (Exc.valueError "could not unpack pair")

/-- `parse_mapping` (lines 67-83): empty string gives the empty mapping
(`if not mapping_str`); otherwise split on `,` and unpack each `old:new`. -/
def parse_mapping (s : String) : Except Exc (List (String × String)) :=
  if s = "" then Except.ok [] else parse_pairs [] (splitStr s ',')

/-- `df[cols]`: projection to the listed columns, in the requested order;
rows keep their index. -/
def selectTable (t : Table) (cs : List String) : Table :=
  ⟨cs, t.rows.map (fun r => cs.map (fun c => t.getCell r c)), t.idx⟩

/-- Rename one column label under the mapping (labels without an entry are
untouched, `df.rename`'s semantics). -/
def applyRename (m : List (String × String)) (c : String) : String :=
  match m.lookup c with
  | some n => n
  | none => c

/-- `df.rename(columns=mapping)`: relabel columns, leave rows and index. -/
def renameTable (t : Table) (m : List (String × String)) : Table :=
  ⟨t.cols.map (applyRename m), t.rows, t.idx⟩

/-- Python truthiness of an optional string flag (`if args.select:`):
`None` and `""` are falsy. -/
def truthy : Option String → Bool
  | none => false
  | some s => s != ""

/-- Outcome of one block of `main`'s `try` body: continue with a value,
`return code` directly (bypassing the handlers), or raise an exception that
the `except` clauses will classify. -/
inductive StageOut (α : Type) where
  | ok (a : α) (logs : List LogEntry)
  | ret (code : Nat) (logs : List LogEntry)
  | exc (e : Exc) (logs : List LogEntry)

/-- The column-selection block of `main` (lines 143-151). -/
def selectStage (selectArg : Option String) (df : Table) : StageOut Table :=
  if truthy selectArg then
    let cols := (splitStr (selectArg.getD "") ',').map (fun c => trimStr c)
    let missing_cols := cols.filter (fun c => !(memb c df.cols))
    if missing_cols ≠ [] then
      StageOut.ret 2 [LogEntry.errorColumnsNotFound missing_cols, LogEntry.infoAvailable df.cols]
    else
      StageOut.ok (selectTable df cols) [LogEntry.infoSelected cols]
  else StageOut.ok df []

/-- The column-renaming block of `main` (lines 154-162). -/
def renameStage (renameArg : Option String) (df : Table) : StageOut Table :=
  if truthy renameArg then
    match parse_mapping (renameArg.getD "") with
    | Except.error e => StageOut.exc e []
    | Except.ok mapping =>
      let invalid := (mapping.map Prod.fst).filter (fun old => !(memb old df.cols))
      let logs1 := if invalid ≠ [] then [LogEntry.warnCannotRename invalid] else []
      let mapping2 := if invalid ≠ [] then mapping.filter (fun p => !(memb p.1 invalid)) else mapping
      if mapping2 ≠ [] then
        StageOut.ok (renameTable df mapping2) (logs1 ++ [LogEntry.infoRenamed mapping2])
      else
        StageOut.ok df logs1
  else StageOut.ok df []

/-- The required-column validation block of `main` (lines 165-171). -/
def requiredStage (requiredArg : Option String) (df : Table) : StageOut Table :=
  if truthy requiredArg then
    let required_cols := (splitStr (requiredArg.getD "") ',').map (fun c => trimStr c)
    let missing := required_cols.filter (fun c => !(memb c df.cols))
    if missing ≠ [] then
      StageOut.ret 2 [LogEntry.errorMissingRequired missing]
    else
      StageOut.ok df [LogEntry.infoRequiredOk]
  else StageOut.ok df []

/-- The output block of `main` (lines 180-188): dispatch on the lowercased
output suffix; an unrecognized suffix raises `ValueError` before any write. -/
def writeStage (output : FPath) (df : Table) : StageOut (FPath × Table) :=
  if lowerStr output.suffix = ".csv" then
    StageOut.ok (output, df) [LogEntry.infoSaved output.name]
  else if lowerStr output.suffix = ".xlsx" ∨ lowerStr output.suffix = ".xls" then
    StageOut.ok (output, df) [LogEntry.infoSaved output.name]
  else
    StageOut.exc (Exc.valueError "Output must be .csv or .xlsx") []

/-- The CLI arguments after `argparse`: `--select`, `--rename` and
`--required` default to `None`. -/
structure Args where
  inputs : List FPath
  output : FPath
  select : Option String
  rename : Option String
  required : Option String
deriving Repr

/-- The observable outcome of a run: the process exit code, the log, and the
output file written (path and table), if any. -/
structure RunResult where
  exit : Nat
  logs : List LogEntry
  written : Option (FPath × Table)
deriving DecidableEq, Repr

/-- `main`'s exception handlers (lines 190-195): `except ValueError` logs and
returns 2, `except Exception` logs and returns 1. -/
def handleExc (e : Exc) (logs : List LogEntry) : RunResult :=
  if e.isValueError then ⟨2, logs ++ [LogEntry.errorValidation e], none⟩
  else ⟨1, logs ++ [LogEntry.errorExecution e], none⟩

/-- The tail of `main` after validation (lines 173-188): summary logs, then
the write dispatch. -/
def writeAndFinish (output : FPath) (df : Table) (logs : List LogEntry) : RunResult :=
  let logs2 := logs ++ [LogEntry.infoFinal df.rows.length df.cols.length,
                        LogEntry.infoColumns df.cols]
  match writeStage output df with
  | StageOut.ok w l => ⟨0, logs2 ++ l, some w⟩
  | StageOut.ret code l => ⟨code, logs2 ++ l, none⟩
  | StageOut.exc e l => handleExc e (logs2 ++ l)

/-- `main` (lines 86-195): merge, select, rename, validate, write, with early
`return 2` passing through directly and exceptions routed to the handlers. -/
def mainRun (fs : FPath → FileData) (a : Args) : RunResult :=
  match merge_inputs fs a.inputs with
  | (Except.error e, logs) => handleExc e logs
  | (Except.ok df0, mlogs) =>
    let logs0 := mlogs ++ [LogEntry.infoMergedRows df0.rows.length]
    match selectStage a.select df0 with
    | StageOut.ret code l => ⟨code, logs0 ++ l, none⟩
    | StageOut.exc e l => handleExc e (logs0 ++ l)
    | StageOut.ok df1 l1 =>
      let logs1 := logs0 ++ l1
      match renameStage a.rename df1 with
      | StageOut.ret code l => ⟨code, logs1 ++ l, none⟩
      | StageOut.exc e l => handleExc e (logs1 ++ l)
      | StageOut.ok df2 l2 =>
        let logs2 := logs1 ++ l2
        match requiredStage a.required df2 with
        | StageOut.ret code l => ⟨code, logs2 ++ l, none⟩
        | StageOut.exc e l => handleExc e (logs2 ++ l)
        | StageOut.ok df3 l3 => writeAndFinish a.output df3 (logs2 ++ l3)

/-- A sample two-row table with columns `id`, `name`. -/
def tAB : Table :=
  ⟨["id", "name"], [[Cell.str "1", Cell.str "x"], [Cell.str "2", Cell.str "y"]], [0, 1]⟩

/-- A file that decodes to `t` under every decoder. -/
def okFile (t : Table) : FileData := ⟨Except.ok t, Except.ok t, Except.ok t⟩

/-- An input path with a `.csv` suffix. -/
def csvA : FPath := ⟨"a.csv", ".csv"⟩

/-- An input path with an unsupported `.txt` suffix. -/
def txtP : FPath := ⟨"bad.txt", ".txt"⟩

/-- The output path `out.csv`. -/
def outCsv : FPath := ⟨"out.csv", ".csv"⟩

/-- A filesystem where every file decodes to `tAB`. -/
def fs0 : FPath → FileData := fun _ => okFile tAB

/-! ### Helper lemmas -/

/-- `memb` agrees with list membership. -/
theorem memb_iff_mem (c : String) (l : List String) : memb c l = true ↔ c ∈ l := by
  induction l with
  | nil => simp [memb]
  | cons x xs ih =>
    by_cases h : x = c
    · subst h; simp [memb]
    · have h2 : ¬ c = x := fun hcx => h hcx.symm
      simp [memb, h, h2, ih, List.mem_cons]

/-- If every path before `p` reads successfully and `p` fails, the read loop
fails with `p`'s exception. -/
theorem readAll_append_error (fs : FPath → FileData) (pre : List FPath) (p : FPath)
    (post : List FPath) (e : Exc) (plogs : List LogEntry)
    (hpre : ∀ q ∈ pre, ∃ t logs, read_table fs q = (Except.ok t, logs))
    (hp : read_table fs p = (Except.error e, plogs)) :
    ∃ logs, readAll fs (pre ++ p :: post) = (Except.error e, logs) := by
  induction pre with
  | nil =>
    refine ⟨plogs, ?_⟩
    simp [readAll, hp]
  | cons q pre ih =>
    obtain ⟨t, qlogs, hq⟩ := hpre q (by simp)
    obtain ⟨logs, hlogs⟩ := ih (fun r hr => hpre r (by simp [hr]))
    refine ⟨qlogs ++ [LogEntry.infoLoaded q.name t.rows.length t.cols.length] ++ logs, ?_⟩
    simp [readAll, hq, hlogs]

/-- Every parse failure of the pair loop is the unpacking `ValueError`. -/
theorem parse_pairs_error_shape (l : List String) :
    ∀ (m : List (String × String)) (e : Exc),
    parse_pairs m l = Except.error e → e = Exc.valueError "could not unpack pair" := by
  induction l with
  | nil => intro m e h; simp [parse_pairs] at h
  | cons pair rest ih =>
    intro m e h
    rw [parse_pairs] at h
    rcases hsplit : splitStr pair ':' with _ | ⟨o, _ | ⟨n, _ | ⟨x, xs⟩⟩⟩ <;> rw [hsplit] at h
    · exact (Except.error.inj h).symm
    · exact (Except.error.inj h).symm
    · exact ih _ _ h
    · exact (Except.error.inj h).symm

/-- Every parse failure of `parse_mapping` is the unpacking `ValueError`. -/
theorem parse_mapping_error_shape (s : String) (e : Exc)
    (h : parse_mapping s = Except.error e) :
    e = Exc.valueError "could not unpack pair" := by
  rw [parse_mapping] at h
  by_cases hs : s = ""
  · simp [hs] at h
  · rw [if_neg hs] at h
    exact parse_pairs_error_shape _ _ _ h

/-! ### C1 -/

/-- Arguments with a single `.txt` input. -/
def aBadInputExt : Args := ⟨[txtP], outCsv, none, none, none⟩

/-- Arguments with a good `.csv` input and a `.json` output. -/
def aBadOutputExt : Args := ⟨[csvA], ⟨"out.json", ".json"⟩, none, none, none⟩

/-- C1 counterexample: running with the unsupported input extension `.txt`
exits with code 2, not 1 as the claim states, because the unsupported-format
`ValueError` is caught by `main`'s `except ValueError` handler. -/
theorem c1_counterexample :
    (mainRun fs0 aBadInputExt).exit = 2 ∧ ¬ (mainRun fs0 aBadInputExt).exit = 1 := by
  decide

/-- C1 amended: an unsupported input extension (reached after all earlier
inputs read successfully), or an unsupported output extension (reached after
all stages pass), fails the run with the unsupported-format `ValueError`, which
`main` catches as a validation-class failure: exit code 2, nothing written. -/
theorem c1_unsupported_format_exits_two :
    (∀ (fs : FPath → FileData) (a : Args) (pre : List FPath) (p : FPath) (post : List FPath),
      a.inputs = pre ++ p :: post →
      (∀ q ∈ pre, ∃ t logs, read_table fs q = (Except.ok t, logs)) →
      ¬ (lowerStr p.suffix = ".xlsx" ∨ lowerStr p.suffix = ".xls") →
      ¬ lowerStr p.suffix = ".csv" →
      (mainRun fs a).exit = 2 ∧ (mainRun fs a).written = none) ∧
    (∀ (fs : FPath → FileData) (a : Args) (df0 df1 df2 df3 : Table)
       (mlogs l1 l2 l3 : List LogEntry),
      merge_inputs fs a.inputs = (Except.ok df0, mlogs) →
      selectStage a.select df0 = StageOut.ok df1 l1 →
      renameStage a.rename df1 = StageOut.ok df2 l2 →
      requiredStage a.required df2 = StageOut.ok df3 l3 →
      ¬ lowerStr a.output.suffix = ".csv" →
      ¬ (lowerStr a.output.suffix = ".xlsx" ∨ lowerStr a.output.suffix = ".xls") →
      (mainRun fs a).exit = 2 ∧ (mainRun fs a).written = none) := by
  constructor
  · intro fs a pre p post hin hpre hx hc
    have hrt : read_table fs p =
        (Except.error (Exc.valueError ("Unsupported format: " ++ p.name)), []) := by
      simp [read_table, hx, hc]
    obtain ⟨logs, hra⟩ := readAll_append_error fs pre p post _ _ hpre hrt
    have hm : merge_inputs fs a.inputs =
        (Except.error (Exc.valueError ("Unsupported format: " ++ p.name)), logs) := by
      rw [hin]
      simp [merge_inputs, hra]
    simp [mainRun, hm, handleExc, Exc.isValueError]
  · intro fs a df0 df1 df2 df3 mlogs l1 l2 l3 hm hs hr hq h1 h2
    simp [mainRun, hm, hs, hr, hq, writeAndFinish, writeStage, h1, h2, handleExc,
      Exc.isValueError]

/-- C1 witness: both halves at concrete runs — input `bad.txt`, and input
`a.csv` with output `out.json`. -/
theorem c1_witness :
    ((mainRun fs0 aBadInputExt).exit = 2 ∧ (mainRun fs0 aBadInputExt).written = none) ∧
    ((mainRun fs0 aBadOutputExt).exit = 2 ∧ (mainRun fs0 aBadOutputExt).written = none) := by
  constructor
  · exact c1_unsupported_format_exits_two.1 fs0 aBadInputExt [] txtP [] rfl
      (by intro q hq; exact absurd hq (by simp)) (by decide) (by decide)
  · exact c1_unsupported_format_exits_two.2 fs0 aBadOutputExt tAB tAB tAB tAB
      [LogEntry.infoLoaded "a.csv" 2 2] [] [] [] rfl rfl rfl rfl (by decide) (by decide)

/-! ### C2 -/

/-- Arguments with a malformed rename pair `a:b:c`. -/
def aBadPair : Args := ⟨[csvA], outCsv, none, some "a:b:c", none⟩

/-- C2 counterexample: a malformed rename pair makes the run exit with code 2,
not 1 as the claim states, because the unpacking error is a `ValueError` and
`main` catches `ValueError` with `return 2`. -/
theorem c2_counterexample :
    (mainRun fs0 aBadPair).exit = 2 ∧ ¬ (mainRun fs0 aBadPair).exit = 1 := by
  decide

/-- C2 amended: a malformed rename-mapping pair fails the run with exit code 2
(the unpacking `ValueError` lands in the validation-class handler), nothing is
written, and the failure is surfaced during the rename stage before any rename
is applied: the log ends at the select stage's entries. -/
theorem c2_malformed_mapping_exits_two (fs : FPath → FileData) (a : Args)
    (df0 df1 : Table) (mlogs l1 : List LogEntry) (e : Exc)
    (hm : merge_inputs fs a.inputs = (Except.ok df0, mlogs))
    (hs : selectStage a.select df0 = StageOut.ok df1 l1)
    (ht : truthy a.rename = true)
    (hp : parse_mapping (a.rename.getD "") = Except.error e) :
    mainRun fs a =
      ⟨2, mlogs ++ [LogEntry.infoMergedRows df0.rows.length] ++ l1 ++
          [LogEntry.errorValidation e], none⟩ := by
  have he := parse_mapping_error_shape _ _ hp
  subst he
  have hr : renameStage a.rename df1 =
      StageOut.exc (Exc.valueError "could not unpack pair") [] := by
    simp [renameStage, ht, hp]
  simp [mainRun, hm, hs, hr, handleExc, Exc.isValueError]

/-- C2 witness: the amended claim at the concrete run with `--rename a:b:c`. -/
theorem c2_witness :
    mainRun fs0 aBadPair =
      ⟨2, [LogEntry.infoLoaded "a.csv" 2 2, LogEntry.infoMergedRows 2,
           LogEntry.errorValidation (Exc.valueError "could not unpack pair")], none⟩ := by
  exact c2_malformed_mapping_exits_two fs0 aBadPair tAB tAB
    [LogEntry.infoLoaded "a.csv" 2 2] [] (Exc.valueError "could not unpack pair")
    rfl rfl rfl rfl

/-! ### C3 -/

/-- Arguments selecting the duplicate list `id,id`. -/
def aDupSelect : Args := ⟨[csvA], outCsv, some "id,id", none, none⟩

/-- The duplicate-column table that the `aDupSelect` run writes. -/
def tDup : Table :=
  ⟨["id", "id"], [[Cell.str "1", Cell.str "1"], [Cell.str "2", Cell.str "2"]], [0, 1]⟩

/-- C3 counterexample: with `--select "id,id"` the run completes successfully
(exit 0) and writes a table whose column names are not unique, so uniqueness is
not preserved by every stage of every successfully-completing run. -/
theorem c3_counterexample :
    (mainRun fs0 aDupSelect).exit = 0 ∧
    (mainRun fs0 aDupSelect).written = some (outCsv, tDup) ∧
    ¬ tDup.cols.Nodup := by
  decide

/-- `unionCols` of duplicate-free lists is duplicate-free. -/
theorem unionCols_nodup (acc cs : List String) (ha : acc.Nodup) (hc : cs.Nodup) :
    (unionCols acc cs).Nodup := by
  unfold unionCols
  refine ha.append (hc.filter _) ?_
  intro c hc1 hc2
  rw [List.mem_filter] at hc2
  have h3 := hc2.2
  cases hmb : memb c acc
  · exact absurd ((memb_iff_mem c acc).mpr hc1) (by simp [hmb])
  · rw [hmb] at h3
    exact absurd h3 (by simp)

/-- The concatenated column list is duplicate-free when each input's is. -/
theorem concatCols_nodup_aux (ts : List Table) :
    ∀ acc : List String, acc.Nodup → (∀ t ∈ ts, t.cols.Nodup) →
    (ts.foldl (fun acc t => unionCols acc t.cols) acc).Nodup := by
  induction ts with
  | nil => intro acc ha _; simpa using ha
  | cons t ts ih =>
    intro acc ha hts
    simp only [List.foldl_cons]
    exact ih _ (unionCols_nodup acc t.cols ha (hts t (by simp)))
      (fun u hu => hts u (by simp [hu]))

/-- A required-stage success passes the table through unchanged. -/
theorem requiredStage_ok_eq (req : Option String) (df df2 : Table) (l : List LogEntry)
    (h : requiredStage req df = StageOut.ok df2 l) : df2 = df := by
  simp only [requiredStage] at h
  split at h
  · split at h
    · simp at h
    · cases h
      rfl
  · cases h
    rfl

/-- C3 amended: merging tables with unique column names yields unique column
names, and validation passes the table through unchanged; but the select stage
preserves uniqueness only when the select list itself is duplicate-free, and
the rename stage only when the applied mapping is injective on the current
column names (a duplicate select entry or a colliding rename produces duplicate
columns in a run that still completes successfully). -/
theorem c3_uniqueness_preservation :
    (∀ ts : List Table, (∀ t ∈ ts, t.cols.Nodup) → (concatTables ts).cols.Nodup) ∧
    (∀ (df : Table) (sel : List String), sel.Nodup → (selectTable df sel).cols.Nodup) ∧
    (∀ (df : Table) (m : List (String × String)), df.cols.Nodup →
      (∀ c1 ∈ df.cols, ∀ c2 ∈ df.cols, applyRename m c1 = applyRename m c2 → c1 = c2) →
      (renameTable df m).cols.Nodup) ∧
    (∀ (req : Option String) (df df2 : Table) (l : List LogEntry),
      requiredStage req df = StageOut.ok df2 l → df2 = df) := by
  refine ⟨?_, ?_, ?_, requiredStage_ok_eq⟩
  · intro ts hts
    show (concatCols ts).Nodup
    exact concatCols_nodup_aux ts [] (by simp) hts
  · intro df sel h
    exact h
  · intro df m hnd hinj
    exact List.Nodup.map_on hinj hnd

/-- C3 witness: the preserved cases at concrete tables. -/
theorem c3_witness :
    (concatTables [tAB]).cols.Nodup ∧
    (selectTable tAB ["id", "name"]).cols.Nodup ∧
    (renameTable tAB [("id", "key")]).cols.Nodup ∧
    tAB = tAB := by
  refine ⟨?_, ?_, ?_, ?_⟩
  · exact c3_uniqueness_preservation.1 [tAB] (by decide)
  · exact c3_uniqueness_preservation.2.1 tAB ["id", "name"] (by decide)
  · exact c3_uniqueness_preservation.2.2.1 tAB [("id", "key")] (by decide) (by decide)
  · exact c3_uniqueness_preservation.2.2.2 (some "id") tAB tAB [LogEntry.infoRequiredOk] rfl

/-! ### C4 -/

/-- Arguments selecting two columns that are not in `tAB`. -/
def aMissSelect : Args := ⟨[csvA], outCsv, some "id,email,phone", none, none⟩

/-- C4: when the select list has missing columns, the run returns exit code 2,
the error entry carries the whole missing list, the available columns are
logged, and nothing is written. -/
theorem c4_select_missing_aborts (fs : FPath → FileData) (a : Args)
    (df0 : Table) (mlogs : List LogEntry)
    (hm : merge_inputs fs a.inputs = (Except.ok df0, mlogs))
    (ht : truthy a.select = true)
    (hmiss : ((splitStr (a.select.getD "") ',').map (fun c => trimStr c)).filter
        (fun c => !(memb c df0.cols)) ≠ []) :
    mainRun fs a =
      ⟨2, mlogs ++ [LogEntry.infoMergedRows df0.rows.length] ++
          [LogEntry.errorColumnsNotFound (((splitStr (a.select.getD "") ',').map
              (fun c => trimStr c)).filter (fun c => !(memb c df0.cols))),
           LogEntry.infoAvailable df0.cols], none⟩ := by
  have hs : selectStage a.select df0 = StageOut.ret 2
      [LogEntry.errorColumnsNotFound (((splitStr (a.select.getD "") ',').map (fun c => trimStr c)).filter (fun c => !(memb c df0.cols))),
       LogEntry.infoAvailable df0.cols] := by
    simp [selectStage, ht, hmiss]
  simp [mainRun, hm, hs]

/-- C4 witness: the concrete run with `--select "id,email,phone"`. -/
theorem c4_witness :
    mainRun fs0 aMissSelect =
      ⟨2, [LogEntry.infoLoaded "a.csv" 2 2, LogEntry.infoMergedRows 2,
           LogEntry.errorColumnsNotFound ["email", "phone"],
           LogEntry.infoAvailable ["id", "name"]], none⟩ := by
  exact c4_select_missing_aborts fs0 aMissSelect tAB [LogEntry.infoLoaded "a.csv" 2 2]
    rfl rfl (by decide)

/-! ### C5 -/

/-- Arguments requiring `id,email` of a table with columns `id,name`. -/
def aReqMissing : Args := ⟨[csvA], outCsv, none, none, some "id,email"⟩

/-- C5: once the run reaches the required-column validation, it aborts with
exit code 2 exactly when some trimmed required name is absent from the current
(post-select, post-rename) table; the missing names are logged on failure, and
on success the run continues to the write stage. -/
theorem c5_required_validation (fs : FPath → FileData) (a : Args)
    (df0 df1 df2 : Table) (mlogs l1 l2 : List LogEntry)
    (hm : merge_inputs fs a.inputs = (Except.ok df0, mlogs))
    (hs : selectStage a.select df0 = StageOut.ok df1 l1)
    (hr : renameStage a.rename df1 = StageOut.ok df2 l2)
    (ht : truthy a.required = true) :
    ((∃ l, requiredStage a.required df2 = StageOut.ret 2 l) ↔
      ((splitStr (a.required.getD "") ',').map (fun c => trimStr c)).filter
        (fun c => !(memb c df2.cols)) ≠ []) ∧
    (((splitStr (a.required.getD "") ',').map (fun c => trimStr c)).filter
        (fun c => !(memb c df2.cols)) ≠ [] →
      mainRun fs a =
        ⟨2, mlogs ++ [LogEntry.infoMergedRows df0.rows.length] ++ l1 ++ l2 ++
            [LogEntry.errorMissingRequired (((splitStr (a.required.getD "") ',').map (fun c => trimStr c)).filter (fun c => !(memb c df2.cols)))], none⟩) ∧
    (((splitStr (a.required.getD "") ',').map (fun c => trimStr c)).filter
        (fun c => !(memb c df2.cols)) = [] →
      mainRun fs a = writeAndFinish a.output df2
        (mlogs ++ [LogEntry.infoMergedRows df0.rows.length] ++ l1 ++ l2 ++
         [LogEntry.infoRequiredOk])) := by
  refine ⟨⟨?_, ?_⟩, ?_, ?_⟩
  · rintro ⟨l, hl⟩
    intro hmiss
    have hok : requiredStage a.required df2 = StageOut.ok df2 [LogEntry.infoRequiredOk] := by
      simp [requiredStage, ht, hmiss]
    rw [hok] at hl
    simp at hl
  · intro hmiss
    exact ⟨[LogEntry.errorMissingRequired (((splitStr (a.required.getD "") ',').map (fun c => trimStr c)).filter (fun c => !(memb c df2.cols)))],
      by simp [requiredStage, ht, hmiss]⟩
  · intro hmiss
    have hq : requiredStage a.required df2 = StageOut.ret 2
        [LogEntry.errorMissingRequired (((splitStr (a.required.getD "") ',').map (fun c => trimStr c)).filter (fun c => !(memb c df2.cols)))] := by
      simp [requiredStage, ht, hmiss]
    simp [mainRun, hm, hs, hr, hq]
  · intro hmiss
    have hq : requiredStage a.required df2 = StageOut.ok df2 [LogEntry.infoRequiredOk] := by
      simp [requiredStage, ht, hmiss]
    simp [mainRun, hm, hs, hr, hq]

/-- C5 witness: the concrete run with `--required "id,email"` on columns
`id,name` aborts with exit code 2 and logs `email` as missing. -/
theorem c5_witness :
    (∃ l, requiredStage (some "id,email") tAB = StageOut.ret 2 l) ∧
    mainRun fs0 aReqMissing =
      ⟨2, [LogEntry.infoLoaded "a.csv" 2 2, LogEntry.infoMergedRows 2,
           LogEntry.errorMissingRequired ["email"]], none⟩ := by
  have h := c5_required_validation fs0 aReqMissing tAB tAB tAB
    [LogEntry.infoLoaded "a.csv" 2 2] [] [] rfl rfl rfl rfl
  exact ⟨h.1.mpr (by decide), h.2.1 (by decide)⟩

/-! ### C6 -/

/-- C6: a select whose trimmed names are all present replaces the working
table with the projection to exactly those columns in the requested order,
keeping the row count. -/
theorem c6_select_projection (selectArg : Option String) (df : Table)
    (ht : truthy selectArg = true)
    (hall : ((splitStr (selectArg.getD "") ',').map (fun c => trimStr c)).filter
        (fun c => !(memb c df.cols)) = []) :
    selectStage selectArg df =
      StageOut.ok (selectTable df ((splitStr (selectArg.getD "") ',').map (fun c => trimStr c)))
        [LogEntry.infoSelected ((splitStr (selectArg.getD "") ',').map (fun c => trimStr c))] ∧
    (selectTable df ((splitStr (selectArg.getD "") ',').map (fun c => trimStr c))).cols =
      (splitStr (selectArg.getD "") ',').map (fun c => trimStr c) ∧
    (selectTable df ((splitStr (selectArg.getD "") ',').map (fun c => trimStr c))).rows.length =
      df.rows.length := by
  refine ⟨?_, rfl, ?_⟩
  · simp [selectStage, ht, hall]
  · simp [selectTable]

/-- C6 witness: `--select "id, name"` (with a space to exercise trimming) on
`tAB` projects to `id,name` with both rows kept. -/
theorem c6_witness :
    selectStage (some "id, name") tAB =
      StageOut.ok tAB [LogEntry.infoSelected ["id", "name"]] ∧
    (selectTable tAB ["id", "name"]).cols = ["id", "name"] ∧
    (selectTable tAB ["id", "name"]).rows.length = 2 := by
  exact c6_select_projection (some "id, name") tAB rfl rfl

/-! ### C7 -/

/-- Membership in the union of two column lists. -/
theorem mem_unionCols (acc cs : List String) (c : String) :
    c ∈ unionCols acc cs ↔ c ∈ acc ∨ c ∈ cs := by
  unfold unionCols
  rw [List.mem_append]
  constructor
  · rintro (h | h)
    · exact Or.inl h
    · exact Or.inr (List.mem_of_mem_filter h)
  · rintro (h | h)
    · exact Or.inl h
    · by_cases hacc : c ∈ acc
      · exact Or.inl hacc
      · refine Or.inr (List.mem_filter.mpr ⟨h, ?_⟩)
        cases hmb : memb c acc
        · simp
        · exact absurd ((memb_iff_mem c acc).mp hmb) hacc

/-- Membership in the concatenated column list, for any accumulator. -/
theorem mem_concatCols_aux (ts : List Table) :
    ∀ (acc : List String) (c : String),
    c ∈ ts.foldl (fun acc t => unionCols acc t.cols) acc ↔
      c ∈ acc ∨ ∃ t ∈ ts, c ∈ t.cols := by
  induction ts with
  | nil => intro acc c; simp
  | cons t ts ih =>
    intro acc c
    simp only [List.foldl_cons]
    rw [ih, mem_unionCols]
    constructor
    · rintro ((h | h) | ⟨u, hu, hc⟩)
      · exact Or.inl h
      · exact Or.inr ⟨t, by simp, h⟩
      · exact Or.inr ⟨u, by simp [hu], hc⟩
    · rintro (h | ⟨u, hu, hc⟩)
      · exact Or.inl (Or.inl h)
      · rcases List.mem_cons.mp hu with h1 | h1
        · subst h1
          exact Or.inl (Or.inr hc)
        · exact Or.inr ⟨u, h1, hc⟩

/-- C7: merging tables with identical column sets yields the summed row count,
a column set equal to each input's, the rows blocked in file order, and a
freshly assigned contiguous index `0..n-1` (no reuse of per-file indices). -/
theorem c7_merge_identical_columns (ts : List Table)
    (hsame : ∀ t ∈ ts, ∀ u ∈ ts, ∀ c : String, c ∈ t.cols ↔ c ∈ u.cols) :
    (concatTables ts).rows.length = (ts.map (fun t => t.rows.length)).sum ∧
    (∀ t ∈ ts, ∀ c : String, c ∈ (concatTables ts).cols ↔ c ∈ t.cols) ∧
    (concatTables ts).rows =
      (ts.map (fun t => t.rows.map (reindexRow t (concatTables ts).cols))).flatten ∧
    (concatTables ts).idx = List.range ((ts.map (fun t => t.rows.length)).sum) := by
  have hlen : (concatTables ts).rows.length = (ts.map (fun t => t.rows.length)).sum := by
    simp [concatTables, List.length_flatten, List.map_map, Function.comp_def, List.length_map]
  refine ⟨hlen, ?_, rfl, ?_⟩
  · intro t htmem c
    constructor
    · intro hc
      rcases (mem_concatCols_aux ts [] c).mp hc with h | ⟨u, hu, hcu⟩
      · simp at h
      · exact (hsame u hu t htmem c).mp hcu
    · intro hc
      exact (mem_concatCols_aux ts [] c).mpr (Or.inr ⟨t, htmem, hc⟩)
  · show List.range (concatTables ts).rows.length = _
    rw [hlen]

/-- A one-row table with the same column set as `tAB`, in another order. -/
def tCD : Table := ⟨["name", "id"], [[Cell.str "z", Cell.str "9"]], [0]⟩

/-- C7 witness: merging `tAB` (2 rows) and `tCD` (1 row) gives 3 rows, the
shared column set, and index `0,1,2`. -/
theorem c7_witness :
    (concatTables [tAB, tCD]).rows.length = 3 ∧
    ("id" ∈ (concatTables [tAB, tCD]).cols ↔ "id" ∈ tCD.cols) ∧
    (concatTables [tAB, tCD]).idx = List.range 3 := by
  have hsame : ∀ t ∈ [tAB, tCD], ∀ u ∈ [tAB, tCD], ∀ c : String, c ∈ t.cols ↔ c ∈ u.cols := by
    intro t ht u hu c
    fin_cases ht <;> fin_cases hu <;> simp [tAB, tCD, List.mem_cons] <;> tauto
  have h := c7_merge_identical_columns [tAB, tCD] hsame
  exact ⟨h.1, h.2.1 tCD (List.mem_cons_of_mem tAB (List.mem_cons_self tCD [])) "id", h.2.2.2⟩

/-! ### C8 -/

/-- Filtering on non-membership in the empty list keeps everything. -/
theorem filter_memb_nil (m : List (String × String)) :
    m.filter (fun p => !(memb p.1 ([] : List String))) = m := by
  induction m with
  | nil => rfl
  | cons p ps ih => simp [List.filter_cons, memb, ih]

/-- Renaming with the empty mapping changes nothing. -/
theorem renameTable_nil (df : Table) : renameTable df [] = df := by
  have h2 : List.map (applyRename []) df.cols = df.cols := by
    induction df.cols with
    | nil => rfl
    | cons c cs ih =>
      rw [List.map_cons, ih]
      rfl
  show Table.mk (List.map (applyRename []) df.cols) df.rows df.idx = df
  rw [h2]

/-- C8: with a well-formed mapping the rename stage always succeeds: keys
absent from the current columns are dropped (warned about when present), and
only the filtered mapping is applied. -/
theorem c8_rename_never_aborts (renameArg : Option String) (df : Table)
    (m : List (String × String))
    (ht : truthy renameArg = true)
    (hp : parse_mapping (renameArg.getD "") = Except.ok m) :
    renameStage renameArg df =
      StageOut.ok
        (renameTable df (m.filter (fun p =>
          !(memb p.1 ((m.map Prod.fst).filter (fun old => !(memb old df.cols)))))))
        ((if (m.map Prod.fst).filter (fun old => !(memb old df.cols)) ≠ [] then
            [LogEntry.warnCannotRename ((m.map Prod.fst).filter (fun old => !(memb old df.cols)))]
          else []) ++
         (if m.filter (fun p =>
              !(memb p.1 ((m.map Prod.fst).filter (fun old => !(memb old df.cols))))) ≠ [] then
            [LogEntry.infoRenamed (m.filter (fun p =>
              !(memb p.1 ((m.map Prod.fst).filter (fun old => !(memb old df.cols))))))]
          else [])) := by
  by_cases hinv : (m.map Prod.fst).filter (fun old => !(memb old df.cols)) = []
  · by_cases hm2 : m = []
    · subst hm2
      simp [renameStage, ht, hp, renameTable_nil]
    · simp [renameStage, ht, hp, hinv, filter_memb_nil, hm2]
  · by_cases hm2 : m.filter (fun p =>
        !(memb p.1 ((m.map Prod.fst).filter (fun old => !(memb old df.cols))))) = []
    · simp [renameStage, ht, hp, hinv, hm2, renameTable_nil]
    · simp [renameStage, ht, hp, hinv, hm2]

/-- C8 witness: `--rename "nope:new,id:key"` on `tAB` warns about `nope`,
applies only `id → key`, and does not abort. -/
theorem c8_witness :
    renameStage (some "nope:new,id:key") tAB =
      StageOut.ok (renameTable tAB [("id", "key")])
        [LogEntry.warnCannotRename ["nope"], LogEntry.infoRenamed [("id", "key")]] := by
  exact c8_rename_never_aborts (some "nope:new,id:key") tAB
    [("nope", "new"), ("id", "key")] rfl rfl

/-! ### C9 -/

/-- C9: for a `.csv` input the reader tries utf-8 first; only on a
`UnicodeDecodeError` does it retry exactly once with latin1, logging the
fallback; a fallback failure is fatal for that file; any other utf-8 failure
is fatal with no fallback; spreadsheet inputs never consult the latin1
decoder. -/
theorem c9_csv_encoding_fallback (fs : FPath → FileData) (p : FPath) :
    (lowerStr p.suffix = ".csv" →
      (∀ t, (fs p).csvUtf8 = Except.ok t → read_table fs p = (Except.ok t, [])) ∧
      (∀ msg t, (fs p).csvUtf8 = Except.error (Exc.unicodeDecodeError msg) →
        (fs p).csvLatin1 = Except.ok t →
        read_table fs p = (Except.ok t, [LogEntry.warnLatin1 p.name])) ∧
      (∀ msg e, (fs p).csvUtf8 = Except.error (Exc.unicodeDecodeError msg) →
        (fs p).csvLatin1 = Except.error e →
        read_table fs p =
          (Except.error e, [LogEntry.warnLatin1 p.name, LogEntry.errorReadFailed p.name e])) ∧
      (∀ msg, (fs p).csvUtf8 = Except.error (Exc.valueError msg) →
        read_table fs p = (Except.error (Exc.valueError msg),
          [LogEntry.errorReadFailed p.name (Exc.valueError msg)])) ∧
      (∀ msg, (fs p).csvUtf8 = Except.error (Exc.genericError msg) →
        read_table fs p = (Except.error (Exc.genericError msg),
          [LogEntry.errorReadFailed p.name (Exc.genericError msg)]))) ∧
    ((lowerStr p.suffix = ".xlsx" ∨ lowerStr p.suffix = ".xls") →
      (∀ t, (fs p).excelRead = Except.ok t → read_table fs p = (Except.ok t, [])) ∧
      (∀ e, (fs p).excelRead = Except.error e →
        read_table fs p = (Except.error e, [LogEntry.errorReadFailed p.name e]))) := by
  constructor
  · intro hc
    have hx : ¬ (lowerStr p.suffix = ".xlsx" ∨ lowerStr p.suffix = ".xls") := by
      rw [hc]
      decide
    refine ⟨?_, ?_, ?_, ?_, ?_⟩
    · intro t hu
      simp [read_table, hx, hc, hu]
    · intro msg t hu hl
      simp [read_table, hx, hc, hu, hl]
    · intro msg e hu hl
      simp [read_table, hx, hc, hu, hl]
    · intro msg hu
      simp [read_table, hx, hc, hu]
    · intro msg hu
      simp [read_table, hx, hc, hu]
  · intro hor
    refine ⟨?_, ?_⟩
    · intro t hex
      simp [read_table, hor, hex]
    · intro e hex
      simp [read_table, hor, hex]

/-- A filesystem whose one file fails utf-8 decoding with invalid bytes but
decodes under latin1 (and is not a spreadsheet). -/
def fsUDE : FPath → FileData :=
  fun _ => ⟨Except.error (Exc.unicodeDecodeError "invalid byte"), Except.ok tAB,
            Except.error (Exc.genericError "not a spreadsheet")⟩

/-- C9 witness: reading `a.csv` under `fsUDE` succeeds via the latin1 fallback
and logs that the fallback was used. -/
theorem c9_witness :
    read_table fsUDE csvA = (Except.ok tAB, [LogEntry.warnLatin1 "a.csv"]) := by
  exact ((c9_csv_encoding_fallback fsUDE csvA).1 rfl).2.1 "invalid byte" tAB rfl rfl

/-! ### C10 -/

/-- Runs differing only in stage flags with pointwise-equal stage behaviour
coincide. -/
theorem mainRun_stage_congr (fs : FPath → FileData) (inputs : List FPath) (output : FPath)
    (s1 s2 r1 r2 q1 q2 : Option String)
    (hs : ∀ df, selectStage s1 df = selectStage s2 df)
    (hr : ∀ df, renameStage r1 df = renameStage r2 df)
    (hq : ∀ df, requiredStage q1 df = requiredStage q2 df) :
    mainRun fs ⟨inputs, output, s1, r1, q1⟩ = mainRun fs ⟨inputs, output, s2, r2, q2⟩ := by
  simp only [mainRun, hs, hr, hq]

/-- C10: an empty-string `--select`, `--rename` or `--required` behaves
exactly like an absent flag (Python truthiness of `""`), and
`parse_mapping("")` is the empty mapping. -/
theorem c10_empty_flag_like_absent (fs : FPath → FileData) (a : Args) :
    parse_mapping "" = Except.ok [] ∧
    mainRun fs { a with select := some "" } = mainRun fs { a with select := none } ∧
    mainRun fs { a with rename := some "" } = mainRun fs { a with rename := none } ∧
    mainRun fs { a with required := some "" } = mainRun fs { a with required := none } := by
  obtain ⟨inputs, output, s, r, q⟩ := a
  refine ⟨rfl, ?_, ?_, ?_⟩
  · exact mainRun_stage_congr fs inputs output (some "") none r r q q
      (fun df => rfl) (fun df => rfl) (fun df => rfl)
  · exact mainRun_stage_congr fs inputs output s s (some "") none q q
      (fun df => rfl) (fun df => rfl) (fun df => rfl)
  · exact mainRun_stage_congr fs inputs output s s r r (some "") none
      (fun df => rfl) (fun df => rfl) (fun df => rfl)

end CsvTool
